import Mathlib

/-!
Verification of `phase_a.c`, an argument-free Linux storage scanner.

A shallow embedding of `src/phase_a.c`.  The program reads pseudo-files and
directories, so everything it reads is gathered in an environment record
`Env`; the functions of the source become pure functions of that record.

Conventions of the embedding
* `unsigned long long` values are natural numbers reduced modulo `2^64`
  after every arithmetic operation (`ULL`).
* A C string is the sequence of characters before its terminator; a nullable
  `char *` is an `Option String`.
* `calloc`, `strdup` and `asprintf` are taken to succeed; the branches of the
  source that handle their failure are kept where they influence control flow.
* A linked list threaded through `next` is a `List`, head first.
* Paths are built with `snprintf` into `PATH_MAX` buffers from directory entry
  names, which are at most 255 bytes long, so no path is truncated.
-/

namespace PhaseA

/-! ## Machine integers -/

/-- Number of values of an `unsigned long long`. -/
def ULL : Nat := 2 ^ 64

/-- The constant `SECTOR_BYTES_DEFAULT`. -/
def SECTOR_BYTES_DEFAULT : Nat := 512

/-! ## C string helpers -/

/-- The test `strncmp(a, b, n) == 0`: the first `n` characters agree, where the
comparison stops early when both strings end. -/
def strncmp_eq : List Char → List Char → Nat → Bool
  | _, _, 0 => true
  | [], [], _ + 1 => true
  | a :: as, b :: bs, n + 1 => a == b && strncmp_eq as bs n
  | [], _ :: _, _ + 1 => false
  | _ :: _, [], _ + 1 => false

/-- The test `strcmp(a, b) == 0`. -/
def strcmp_eq (a b : String) : Bool := decide (a = b)

/-! ## Mount table -/

/-- One record of `/proc/mounts` as converted by the `fscanf` of `load_mounts`:
the three captured fields. -/
structure MountRecord where
  dev : String
  mnt : String
  fstype : String
  deriving DecidableEq, Repr

/-- The `struct MountInfo` of the source without its `next` link. -/
structure MountInfo where
  dev : Option String
  realdev : Option String
  mnt : Option String
  fstype : Option String
  deriving DecidableEq, Repr

/-- Everything the scanner reads from the system. -/
structure Env where
  /-- The records `fscanf` converts from `/proc/mounts`, `none` when `fopen` fails. -/
  proc_mounts : Option (List MountRecord)
  /-- The call `realpath(dev, buf)`: the resolved path, `none` on failure. -/
  realpath : String → Option String
  /-- The lines of `/proc/swaps` (header included), each with the size field
  `sscanf` converts when all five fields convert; `none` when `fopen` fails. -/
  proc_swaps : Option (List (Option Nat))
  /-- The `key value` pairs `fscanf` converts from `/proc/meminfo`, `none` when
  `fopen` fails. -/
  proc_meminfo : Option (List (String × Nat))
  /-- The entry names `readdir` yields for `/sys/block`, `none` when `opendir` fails. -/
  sys_block : Option (List String)
  /-- Whether `stat(path, &st) == 0`. -/
  stat_ok : String → Bool
  /-- The number `fscanf(f, "%llu", &v)` converts from the file at a path,
  `none` when the file cannot be opened or holds no number.  The readers keep
  it in the range of an `unsigned long long`. -/
  scan_ull : String → Option Nat
  /-- The entry names `readdir` yields for `/sys/class/block`, `none` when
  `opendir` fails. -/
  sys_class_block : Option (List String)
  /-- The `TYPE` value libblkid finds on a device, `none` when the probe cannot
  be created or finds no type. -/
  blkid_probe : String → Option String

/-- The body of the `while` loop of `load_mounts`: build the node of one record. -/
def mount_node (realpath : String → Option String) (r : MountRecord) : MountInfo :=
  { dev := some r.dev
    mnt := some r.mnt
    fstype := some r.fstype
    realdev :=
      if strncmp_eq r.dev.data "/dev/".data 5 then
        match realpath r.dev with
        | some buf => some buf
        | none => some r.dev
      else some r.dev }

/-- The `while` loop of `load_mounts`: every record is linked in front of the
list built so far (`mi->next = head; head = mi`). -/
def load_loop (realpath : String → Option String) (recs : List MountRecord) :
    List MountInfo :=
  recs.foldl (fun head r => mount_node realpath r :: head) []

/-- The function `load_mounts`. -/
def load_mounts (env : Env) : List MountInfo :=
  match env.proc_mounts with
  | none => []
  | some recs => load_loop env.realpath recs

/-- The function `find_mount_by_dev`: the first node from the head that matches. -/
def find_mount_by_dev : List MountInfo → String → Option MountInfo
  | [], _ => none
  | p :: rest, devpath =>
    if (match p.dev with
        | some d => strcmp_eq d devpath
        | none => false) then some p
    else if (match p.realdev with
        | some d => strcmp_eq d devpath
        | none => false) then some p
    else find_mount_by_dev rest devpath

/-! ## Scalar readers -/

/-- The function `read_ull`: the return code and the value of `*out` after the
call, given its value before.  On failure `*out` is not written. -/
def read_ull (env : Env) (path : String) (out : Nat) : Int × Nat :=
  match env.scan_ull path with
  | none => (-1, out)
  | some v => (0, v % ULL)

/-- The accumulation loop of `read_swap_total_bytes` over the lines after the
header. -/
def swap_sum_kb (lines : List (Option Nat)) : Nat :=
  lines.foldl
    (fun sum_kb line =>
      match line with
      | some size_kb => (sum_kb + size_kb % ULL) % ULL
      | none => sum_kb)
    0

/-- The function `read_swap_total_bytes`. -/
def read_swap_total_bytes (env : Env) : Nat :=
  match env.proc_swaps with
  | none => 0
  | some [] => 0
  | some (_ :: lines) => (swap_sum_kb lines * 1024) % ULL

/-- The loop of `read_ram_total_bytes` over the converted `key value` pairs. -/
def ram_scan : List (String × Nat) → Nat
  | [] => 0
  | (key, kb) :: rest =>
    if strcmp_eq key "MemTotal:" then (kb % ULL * 1024) % ULL
    else ram_scan rest

/-- The function `read_ram_total_bytes`. -/
def read_ram_total_bytes (env : Env) : Nat :=
  match env.proc_meminfo with
  | none => 0
  | some pairs => ram_scan pairs

/-- The constant `cap_16g = 16ULL << 30`. -/
def cap_16g : Nat := (16 * 2 ^ 30) % ULL

/-- The recommended swap size computed at the start of `main` from `ram_bytes`. -/
def rec_swap (ram_bytes : Nat) : Nat :=
  let r := if ram_bytes ≠ 0 then (ram_bytes * 3) % ULL / 2 else (16 * 2 ^ 30) % ULL
  if r > cap_16g then cap_16g else r

/-! ## Names and probes -/

/-- The function `devpath_from_name`; `asprintf` is taken to succeed. -/
def devpath_from_name (name : String) : Option String :=
  some ("/dev/" ++ name)

/-- The function `blkid_type`: the probed `TYPE` of a device path. -/
def blkid_type (env : Env) (devpath : String) : Option String :=
  env.blkid_probe devpath

/-- The function `json_escape`: the characters written for a string. -/
def json_escape : List Char → List Char
  | [] => []
  | c :: s =>
    if c == '\\' || c == '\"' then '\\' :: c :: json_escape s
    else if c == '\n' then '\\' :: 'n' :: json_escape s
    else c :: json_escape s

/-- The function `is_real_disk`. -/
def is_real_disk (env : Env) (name : String) : Bool :=
  env.stat_ok ("/sys/block/" ++ name ++ "/device")

/-- The function `is_partition_of`. -/
def is_partition_of (disk entry : String) : Bool :=
  let dl := disk.data.length
  strncmp_eq entry.data disk.data dl && decide (entry.data.length > dl)

/-- The test `d_name[0] == '.'`. -/
def starts_with_dot (name : String) : Bool :=
  match name.data with
  | c :: _ => c == '.'
  | [] => false

/-! ## Records printed by `main` -/

/-- The fields printed for one partition. -/
structure Partition where
  name : String
  path : String
  start_sector : Nat
  size_sectors : Nat
  end_sector : Nat
  mountpoint : Option String
  fs_type : Option String
  is_lvm_member : Bool
  is_luks : Bool
  deriving DecidableEq, Repr

/-- The fields printed for one disk, with the partitions printed inside it. -/
structure Disk where
  name : String
  path : String
  sector_size : Nat
  size_sectors : Nat
  size_bytes : Nat
  partitions : List Partition
  deriving DecidableEq, Repr

/-- The text of `printf("%llu", n)`. -/
def print_ull (n : Nat) : String := Nat.repr n

/-- The text of `printf("\""); json_escape(s, stdout); printf("\"")`. -/
def print_quoted (s : String) : String :=
  "\"" ++ String.mk (json_escape s.data) ++ "\""

/-- The text of a nullable string field: quoted, or `null`. -/
def print_nullable : Option String → String
  | some s => print_quoted s
  | none => "null"

/-- The text of a flag printed with `%s`. -/
def print_bool (b : Bool) : String := if b then "true" else "false"

/-- The values computed by the body of the partition loop for one entry that
passed the filters, `none` when `devpath_from_name` fails.  Subtracting one
from an `unsigned long long` is adding `ULL - 1` modulo `ULL`. -/
def scan_partition (env : Env) (mounts : List MountInfo) (ce_name : String) :
    Option Partition :=
  let pstart := (read_ull env ("/sys/class/block/" ++ ce_name ++ "/start") 0).2
  let psize := (read_ull env ("/sys/class/block/" ++ ce_name ++ "/size") 0).2
  let pend := if psize ≠ 0 then ((pstart + psize) % ULL + (ULL - 1)) % ULL else pstart
  match devpath_from_name ce_name with
  | none => none
  | some part_dev =>
    let mi := find_mount_by_dev mounts part_dev
    let type := blkid_type env part_dev
    let is_lvm_member :=
      match type with
      | some t => strcmp_eq t "LVM2_member"
      | none => false
    let is_luks :=
      match type with
      | some t => strcmp_eq t "crypto_LUKS"
      | none => false
    some
      { name := ce_name
        path := part_dev
        start_sector := pstart
        size_sectors := psize
        end_sector := pend
        mountpoint :=
          match mi with
          | some m => m.mnt
          | none => none
        fs_type :=
          match (match mi with
                 | some m => m.fstype
                 | none => none) with
          | some f => some f
          | none => type
        is_lvm_member := is_lvm_member
        is_luks := is_luks }

/-- The text printed for one partition object. -/
def print_partition (p : Partition) : String :=
  "\x7b" ++
  "\"name\":" ++ print_quoted p.name ++ "," ++
  "\"path\":" ++ print_quoted p.path ++ "," ++
  "\"start_sector\":" ++ print_ull p.start_sector ++ "," ++
  "\"size_sectors\":" ++ print_ull p.size_sectors ++ "," ++
  "\"end_sector\":" ++ print_ull p.end_sector ++ "," ++
  "\"mountpoint\":" ++ print_nullable p.mountpoint ++ "," ++
  "\"fs_type\":" ++ print_nullable p.fs_type ++ "," ++
  "\"is_lvm_member\":" ++ print_bool p.is_lvm_member ++ "," ++
  "\"is_luks\":" ++ print_bool p.is_luks ++
  "\x7d"

/-! ## The loops of `main` -/

/-- The variables the partition loop changes: the text printed so far,
`first_part`, the two scan-wide flags, and the partition records printed so
far, in order. -/
structure PartLoop where
  out : String
  first_part : Bool
  lvm_present : Bool
  encryption_present : Bool
  parts : List Partition

/-- One iteration of the loop over `/sys/class/block` for the disk `de_name`. -/
def part_step (env : Env) (mounts : List MountInfo) (de_name : String)
    (st : PartLoop) (ce_name : String) : PartLoop :=
  if starts_with_dot ce_name then st
  else if !is_partition_of de_name ce_name then st
  else
    match scan_partition env mounts ce_name with
    | none => st
    | some p =>
      { out := st.out ++ (if !st.first_part then "," else "") ++ print_partition p
        first_part := false
        lvm_present := if p.is_lvm_member then true else st.lvm_present
        encryption_present := if p.is_luks then true else st.encryption_present
        parts := st.parts ++ [p] }

/-- The variables the disk loop changes: the text printed so far, `first_disk`,
the two scan-wide flags, and the disk records printed so far, in order. -/
structure DiskLoop where
  out : String
  first_disk : Bool
  lvm_present : Bool
  encryption_present : Bool
  disks : List Disk

/-- The partition loop of one disk, started after the opening bracket of its
`partitions` array was printed; skipped when `/sys/class/block` cannot be opened. -/
def part_loop (env : Env) (mounts : List MountInfo) (de_name : String)
    (st : PartLoop) : PartLoop :=
  match env.sys_class_block with
  | none => st
  | some entries => entries.foldl (part_step env mounts de_name) st

/-- One iteration of the loop over `/sys/block`. -/
def disk_step (env : Env) (mounts : List MountInfo) (st : DiskLoop)
    (de_name : String) : DiskLoop :=
  if starts_with_dot de_name then st
  else if !is_real_disk env de_name then st
  else
    match devpath_from_name de_name with
    | none => st
    | some disk_dev =>
      let hw_sector :=
        (read_ull env ("/sys/block/" ++ de_name ++ "/queue/hw_sector_size")
          SECTOR_BYTES_DEFAULT).2
      let total_sectors := (read_ull env ("/sys/block/" ++ de_name ++ "/size") 0).2
      let total_bytes := (total_sectors * hw_sector) % ULL
      let head :=
        st.out ++ (if !st.first_disk then "," else "") ++
        "\x7b" ++
        "\"name\":" ++ print_quoted de_name ++ "," ++
        "\"path\":" ++ print_quoted disk_dev ++ "," ++
        "\"sector_size\":" ++ print_ull hw_sector ++ "," ++
        "\"size_sectors\":" ++ print_ull total_sectors ++ "," ++
        "\"size_bytes\":" ++ print_ull total_bytes ++ "," ++
        "\"partitions\":["
      let inner :=
        part_loop env mounts de_name
          { out := head
            first_part := true
            lvm_present := st.lvm_present
            encryption_present := st.encryption_present
            parts := [] }
      { out := inner.out ++ "]\x7d"
        first_disk := false
        lvm_present := inner.lvm_present
        encryption_present := inner.encryption_present
        disks := st.disks ++
          [{ name := de_name
             path := disk_dev
             sector_size := hw_sector
             size_sectors := total_sectors
             size_bytes := total_bytes
             partitions := inner.parts }] }

/-- What a run of the program leaves behind: the exit code returned by `main`,
the text written to standard output by the time it returns, and the values,
records and flags that text was printed from. -/
structure Outcome where
  exit_code : Int
  stdout : String
  swap_current_bytes : Nat
  swap_recommended_bytes : Nat
  disks : List Disk
  lvm_present : Bool
  encryption_present : Bool

/-- The text `main` prints before it opens `/sys/block`. -/
def print_header (swap_bytes rec : Nat) : String :=
  "\x7b" ++
  "\"swap_current_bytes\":" ++ print_ull swap_bytes ++ "," ++
  "\"swap_recommended_bytes\":" ++ print_ull rec ++ "," ++
  "\"disks\":["

/-- The function `main`. -/
def main (env : Env) : Outcome :=
  let mounts := load_mounts env
  let swap_bytes := read_swap_total_bytes env
  let ram_bytes := read_ram_total_bytes env
  let rec_swap := rec_swap ram_bytes
  let out := print_header swap_bytes rec_swap
  match env.sys_block with
  | none =>
    { exit_code := 1
      stdout := out
      swap_current_bytes := swap_bytes
      swap_recommended_bytes := rec_swap
      disks := []
      lvm_present := false
      encryption_present := false }
  | some entries =>
    let fin :=
      entries.foldl (disk_step env mounts)
        { out := out
          first_disk := true
          lvm_present := false
          encryption_present := false
          disks := [] }
    { exit_code := 0
      stdout := fin.out ++ "]" ++
        ",\"lvm_present\":" ++ print_bool fin.lvm_present ++
        ",\"encryption_present\":" ++ print_bool fin.encryption_present ++
        "\x7d\n"
      swap_current_bytes := swap_bytes
      swap_recommended_bytes := rec_swap
      disks := fin.disks
      lvm_present := fin.lvm_present
      encryption_present := fin.encryption_present }

/-- A sample host: one disk `sda` with partitions `sda1` (mounted on `/`) and
`sda2` (an unmounted LUKS container). -/
def sample_env : Env :=
  { proc_mounts := some [⟨"/dev/sda1", "/", "ext4"⟩, ⟨"proc", "/proc", "proc"⟩]
    realpath := fun p => some p
    proc_swaps := some [none]
    proc_meminfo := some [("MemTotal:", 8388608), ("MemFree:", 1000)]
    sys_block := some [".", "..", "loop0", "sda"]
    stat_ok := fun p => decide (p = "/sys/block/sda/device")
    scan_ull := fun p =>
      if p = "/sys/block/sda/queue/hw_sector_size" then some 512
      else if p = "/sys/block/sda/size" then some 1000000
      else if p = "/sys/class/block/sda1/start" then some 2048
      else if p = "/sys/class/block/sda1/size" then some 500000
      else if p = "/sys/class/block/sda2/start" then some 502048
      else if p = "/sys/class/block/sda2/size" then some 497952
      else none
    sys_class_block := some [".", "..", "loop0", "sda", "sda1", "sda2"]
    blkid_probe := fun p =>
      if p = "/dev/sda1" then some "ext4"
      else if p = "/dev/sda2" then some "crypto_LUKS"
      else none }

/-- A host whose kernel attributes sit at the edge of the 64-bit range: the
disk `sda` has `2^55` sectors of 512 bytes, its partition `sda1` starts at
sector `2^64 - 1` and has two sectors, and `MemTotal` is 6004799503160662 kB. -/
def wrap_env : Env :=
  { proc_mounts := some []
    realpath := fun p => some p
    proc_swaps := some [none]
    proc_meminfo := some [("MemTotal:", 6004799503160662)]
    sys_block := some [".", "..", "sda"]
    stat_ok := fun p => decide (p = "/sys/block/sda/device")
    scan_ull := fun p =>
      if p = "/sys/block/sda/queue/hw_sector_size" then some 512
      else if p = "/sys/block/sda/size" then some 36028797018963968
      else if p = "/sys/class/block/sda1/start" then some 18446744073709551615
      else if p = "/sys/class/block/sda1/size" then some 2
      else none
    sys_class_block := some [".", "..", "sda", "sda1"]
    blkid_probe := fun _ => none }

/-- A host where `/dev/sda1` appears twice in `/proc/mounts`: mounted on `/`
and, later in the file, on `/mnt`. -/
def shadow_env : Env :=
  { proc_mounts := some [⟨"/dev/sda1", "/", "ext4"⟩, ⟨"/dev/sda1", "/mnt", "ext4"⟩]
    realpath := fun p => some p
    proc_swaps := some [none]
    proc_meminfo := some [("MemTotal:", 8388608)]
    sys_block := some [".", "..", "sda"]
    stat_ok := fun p => decide (p = "/sys/block/sda/device")
    scan_ull := fun p =>
      if p = "/sys/block/sda/size" then some 1000000
      else if p = "/sys/class/block/sda1/start" then some 2048
      else if p = "/sys/class/block/sda1/size" then some 500000
      else none
    sys_class_block := some [".", "..", "sda", "sda1"]
    blkid_probe := fun _ => none }

/-- A host on which `/sys/block` cannot be opened; every other source is the
one of `sample_env`. -/
def no_sys_block_env : Env :=
  { sample_env with sys_block := none }

/-- The record of `sda1` on `sample_env`. -/
def sample_sda1 : Partition :=
  { name := "sda1"
    path := "/dev/sda1"
    start_sector := 2048
    size_sectors := 500000
    end_sector := 502047
    mountpoint := some "/"
    fs_type := some "ext4"
    is_lvm_member := false
    is_luks := false }

/-- The record of `sda2` on `sample_env`. -/
def sample_sda2 : Partition :=
  { name := "sda2"
    path := "/dev/sda2"
    start_sector := 502048
    size_sectors := 497952
    end_sector := 999999
    mountpoint := none
    fs_type := some "crypto_LUKS"
    is_lvm_member := false
    is_luks := true }

/-- The record of `sda` on `sample_env`. -/
def sample_sda : Disk :=
  { name := "sda"
    path := "/dev/sda"
    sector_size := 512
    size_sectors := 1000000
    size_bytes := 512000000
    partitions := [sample_sda1, sample_sda2] }

/-- The record of `sda1` on `shadow_env`. -/
def shadow_sda1 : Partition :=
  { name := "sda1"
    path := "/dev/sda1"
    start_sector := 2048
    size_sectors := 500000
    end_sector := 502047
    mountpoint := some "/mnt"
    fs_type := some "ext4"
    is_lvm_member := false
    is_luks := false }

/-- The record of `sda` on `shadow_env`. -/
def shadow_sda : Disk :=
  { name := "sda"
    path := "/dev/sda"
    sector_size := 512
    size_sectors := 1000000
    size_bytes := 512000000
    partitions := [shadow_sda1] }

/-! ## Units of escaped text -/

/-- A unit of escaped text: one of the three two-character escapes, or one
character that needs no escape. -/
def is_escape_unit (u : List Char) : Bool :=
  match u with
  | [c] => c != '\\' && c != '\"' && c != '\n'
  | [b, c] => b == '\\' && (c == '\\' || c == '\"' || c == 'n')
  | _ => false

/-- The character a unit stands for. -/
def decode_unit (u : List Char) : Option Char :=
  match u with
  | [c] => some c
  | [_, c] => if c == 'n' then some '\n' else some c
  | _ => none

/-- Reading escaped text back from the left: a backslash takes the next
character with it, a bare double quote or newline is rejected. -/
def json_unescape : List Char → Option (List Char)
  | [] => some []
  | [c] => if c == '\\' || c == '\"' || c == '\n' then none else some [c]
  | b :: c :: rest =>
    if b == '\\' then
      if c == '\\' || c == '\"' then (json_unescape rest).map (c :: ·)
      else if c == 'n' then (json_unescape rest).map ('\n' :: ·)
      else none
    else if b == '\"' || b == '\n' then none
    else (json_unescape (c :: rest)).map (b :: ·)

/-- The unit `json_escape` writes for one character. -/
def escape_char (c : Char) : List Char :=
  if c == '\\' || c == '\"' then ['\\', c]
  else if c == '\n' then ['\\', 'n']
  else [c]

/-! ## The loops as list functions

The two loops of `main` only append to what they print.  The functions below
give the records of one loop run in closed form; `part_loop_parts`,
`disk_loop_disks` and the lemmas next to them prove that the loops compute them. -/

/-- The record the partition loop prints for an entry of `/sys/class/block`,
`none` when the entry is skipped. -/
def part_emit (env : Env) (mounts : List MountInfo) (de_name ce_name : String) :
    Option Partition :=
  if starts_with_dot ce_name then none
  else if !is_partition_of de_name ce_name then none
  else scan_partition env mounts ce_name

/-- The partition records printed inside the disk `de_name`. -/
def emitted_parts (env : Env) (mounts : List MountInfo) (de_name : String) :
    List Partition :=
  match env.sys_class_block with
  | none => []
  | some entries => entries.filterMap (part_emit env mounts de_name)

/-- The record the disk loop prints for an entry of `/sys/block`, `none` when
the entry is skipped. -/
def disk_emit (env : Env) (mounts : List MountInfo) (de_name : String) : Option Disk :=
  if starts_with_dot de_name then none
  else if !is_real_disk env de_name then none
  else
    match devpath_from_name de_name with
    | none => none
    | some disk_dev =>
      let hw_sector :=
        (read_ull env ("/sys/block/" ++ de_name ++ "/queue/hw_sector_size")
          SECTOR_BYTES_DEFAULT).2
      let total_sectors := (read_ull env ("/sys/block/" ++ de_name ++ "/size") 0).2
      some
        { name := de_name
          path := disk_dev
          sector_size := hw_sector
          size_sectors := total_sectors
          size_bytes := (total_sectors * hw_sector) % ULL
          partitions := emitted_parts env mounts de_name }

/-! ## Lemmas on the mount table -/

theorem nullable_strcmp_iff (o : Option String) (devpath : String) :
    (match o with
     | some d => strcmp_eq d devpath
     | none => false) = true ↔ o = some devpath := by
  cases o with
  | none => simp
  | some d => simp [strcmp_eq]

theorem find_mount_by_dev_cons (p : MountInfo) (rest : List MountInfo) (devpath : String) :
    find_mount_by_dev (p :: rest) devpath =
      if p.dev = some devpath ∨ p.realdev = some devpath then some p
      else find_mount_by_dev rest devpath := by
  rw [find_mount_by_dev]
  by_cases h1 : p.dev = some devpath
  · rw [if_pos ((nullable_strcmp_iff p.dev devpath).2 h1), if_pos (Or.inl h1)]
  · have h1' : ¬ ((match p.dev with
        | some d => strcmp_eq d devpath
        | none => false) = true) := fun h => h1 ((nullable_strcmp_iff _ _).1 h)
    rw [if_neg h1']
    by_cases h2 : p.realdev = some devpath
    · rw [if_pos ((nullable_strcmp_iff p.realdev devpath).2 h2), if_pos (Or.inr h2)]
    · have h2' : ¬ ((match p.realdev with
          | some d => strcmp_eq d devpath
          | none => false) = true) := fun h => h2 ((nullable_strcmp_iff _ _).1 h)
      rw [if_neg h2', if_neg (not_or.2 ⟨h1, h2⟩)]

theorem find_mount_by_dev_eq_none (l : List MountInfo) (devpath : String) :
    find_mount_by_dev l devpath = none ↔
      ∀ p ∈ l, ¬ (p.dev = some devpath ∨ p.realdev = some devpath) := by
  induction l with
  | nil => simp [find_mount_by_dev]
  | cons p rest ih =>
    rw [find_mount_by_dev_cons]
    by_cases h : p.dev = some devpath ∨ p.realdev = some devpath
    · rw [if_pos h]
      constructor
      · intro h'
        cases h'
      · intro h'
        exact absurd h (h' p (List.mem_cons_self _ _))
    · rw [if_neg h, ih]
      constructor
      · intro h' q hq
        rcases List.mem_cons.1 hq with rfl | hq
        · exact h
        · exact h' q hq
      · intro h' q hq
        exact h' q (List.mem_cons_of_mem _ hq)

theorem find_mount_by_dev_first (l1 l2 : List MountInfo) (p : MountInfo) (devpath : String)
    (hl1 : ∀ q ∈ l1, ¬ (q.dev = some devpath ∨ q.realdev = some devpath))
    (hp : p.dev = some devpath ∨ p.realdev = some devpath) :
    find_mount_by_dev (l1 ++ p :: l2) devpath = some p := by
  induction l1 with
  | nil => rw [List.nil_append, find_mount_by_dev_cons, if_pos hp]
  | cons q rest ih =>
    rw [List.cons_append, find_mount_by_dev_cons, if_neg (hl1 q (List.mem_cons_self _ _))]
    exact ih (fun q' hq' => hl1 q' (List.mem_cons_of_mem _ hq'))

theorem find_mount_by_dev_mem (l : List MountInfo) (devpath : String) (mi : MountInfo)
    (h : find_mount_by_dev l devpath = some mi) :
    mi ∈ l ∧ (mi.dev = some devpath ∨ mi.realdev = some devpath) := by
  induction l with
  | nil => simp [find_mount_by_dev] at h
  | cons p rest ih =>
    rw [find_mount_by_dev_cons] at h
    by_cases hp : p.dev = some devpath ∨ p.realdev = some devpath
    · rw [if_pos hp] at h
      cases h
      exact ⟨List.mem_cons_self _ _, hp⟩
    · rw [if_neg hp] at h
      exact ⟨List.mem_cons_of_mem _ (ih h).1, (ih h).2⟩

theorem foldl_link_eq {α β : Type} (f : α → β) (recs : List α) (acc : List β) :
    recs.foldl (fun head r => f r :: head) acc = (recs.map f).reverse ++ acc := by
  induction recs generalizing acc with
  | nil => rfl
  | cons r rest ih => simp [List.foldl_cons, ih]

theorem load_loop_eq (realpath : String → Option String) (recs : List MountRecord) :
    load_loop realpath recs = (recs.map (mount_node realpath)).reverse := by
  rw [load_loop, foldl_link_eq, List.append_nil]

theorem load_loop_snoc (realpath : String → Option String) (recs : List MountRecord)
    (r : MountRecord) :
    load_loop realpath (recs ++ [r]) = mount_node realpath r :: load_loop realpath recs := by
  simp [load_loop_eq]

/-- The entry found on a loaded table is the entry of the last record that matches. -/
theorem find_load_loop_some (realpath : String → Option String) (recs : List MountRecord)
    (devpath : String) (mi : MountInfo)
    (h : find_mount_by_dev (load_loop realpath recs) devpath = some mi) :
    ∃ pre r post, recs = pre ++ r :: post ∧ mi = mount_node realpath r ∧
      ((mount_node realpath r).dev = some devpath ∨
        (mount_node realpath r).realdev = some devpath) ∧
      ∀ r' ∈ post, ¬ ((mount_node realpath r').dev = some devpath ∨
        (mount_node realpath r').realdev = some devpath) := by
  induction recs using List.reverseRecOn with
  | nil => simp [load_loop, find_mount_by_dev] at h
  | append_singleton recs r ih =>
    rw [load_loop_snoc, find_mount_by_dev_cons] at h
    by_cases hr : (mount_node realpath r).dev = some devpath ∨
        (mount_node realpath r).realdev = some devpath
    · rw [if_pos hr] at h
      cases h
      exact ⟨recs, r, [], rfl, rfl, hr, by simp⟩
    · rw [if_neg hr] at h
      obtain ⟨pre, r0, post, hrecs, hmi, hr0, hpost⟩ := ih h
      refine ⟨pre, r0, post ++ [r], by rw [hrecs]; simp, hmi, hr0, ?_⟩
      intro r' hr'
      rcases List.mem_append.1 hr' with h1 | h1
      · exact hpost r' h1
      · rw [List.mem_singleton.1 h1]
        exact hr

theorem mem_load_mounts (env : Env) (mi : MountInfo) (h : mi ∈ load_mounts env) :
    ∃ r, mi = mount_node env.realpath r := by
  unfold load_mounts at h
  cases hm : env.proc_mounts with
  | none => rw [hm] at h; simp at h
  | some recs =>
    rw [hm] at h
    simp only [load_loop_eq, List.mem_reverse, List.mem_map] at h
    obtain ⟨r, _, hr⟩ := h
    exact ⟨r, hr.symm⟩

/-! ## Lemmas on the loops -/

theorem part_step_eq (env : Env) (mounts : List MountInfo) (de_name : String)
    (st : PartLoop) (ce_name : String) :
    part_step env mounts de_name st ce_name =
      match part_emit env mounts de_name ce_name with
      | none => st
      | some p =>
        { out := st.out ++ (if !st.first_part then "," else "") ++ print_partition p
          first_part := false
          lvm_present := if p.is_lvm_member then true else st.lvm_present
          encryption_present := if p.is_luks then true else st.encryption_present
          parts := st.parts ++ [p] } := by
  unfold part_step part_emit
  by_cases h1 : starts_with_dot ce_name = true
  · simp [h1]
  · by_cases h2 : (!is_partition_of de_name ce_name) = true
    · simp [h1, h2]
    · simp [h1, h2]

theorem part_fold_parts (env : Env) (mounts : List MountInfo) (de_name : String)
    (entries : List String) (st : PartLoop) :
    (entries.foldl (part_step env mounts de_name) st).parts =
      st.parts ++ entries.filterMap (part_emit env mounts de_name) := by
  induction entries generalizing st with
  | nil => simp
  | cons e rest ih =>
    rw [List.foldl_cons, ih, part_step_eq, List.filterMap_cons]
    cases part_emit env mounts de_name e with
    | none => rfl
    | some p => simp

theorem part_fold_lvm (env : Env) (mounts : List MountInfo) (de_name : String)
    (entries : List String) (st : PartLoop) :
    (entries.foldl (part_step env mounts de_name) st).lvm_present =
      (st.lvm_present ||
        (entries.filterMap (part_emit env mounts de_name)).any (fun p => p.is_lvm_member)) := by
  induction entries generalizing st with
  | nil => simp
  | cons e rest ih =>
    rw [List.foldl_cons, ih, part_step_eq, List.filterMap_cons]
    cases part_emit env mounts de_name e with
    | none => rfl
    | some p =>
      cases hp : p.is_lvm_member <;> simp [hp]

theorem part_fold_enc (env : Env) (mounts : List MountInfo) (de_name : String)
    (entries : List String) (st : PartLoop) :
    (entries.foldl (part_step env mounts de_name) st).encryption_present =
      (st.encryption_present ||
        (entries.filterMap (part_emit env mounts de_name)).any (fun p => p.is_luks)) := by
  induction entries generalizing st with
  | nil => simp
  | cons e rest ih =>
    rw [List.foldl_cons, ih, part_step_eq, List.filterMap_cons]
    cases part_emit env mounts de_name e with
    | none => rfl
    | some p =>
      cases hp : p.is_luks <;> simp [hp]

theorem part_loop_parts (env : Env) (mounts : List MountInfo) (de_name : String)
    (st : PartLoop) :
    (part_loop env mounts de_name st).parts =
      st.parts ++ emitted_parts env mounts de_name := by
  unfold part_loop emitted_parts
  cases env.sys_class_block with
  | none => simp
  | some entries => exact part_fold_parts env mounts de_name entries st

theorem part_loop_lvm (env : Env) (mounts : List MountInfo) (de_name : String)
    (st : PartLoop) :
    (part_loop env mounts de_name st).lvm_present =
      (st.lvm_present ||
        (emitted_parts env mounts de_name).any (fun p => p.is_lvm_member)) := by
  unfold part_loop emitted_parts
  cases env.sys_class_block with
  | none => simp
  | some entries => exact part_fold_lvm env mounts de_name entries st

theorem part_loop_enc (env : Env) (mounts : List MountInfo) (de_name : String)
    (st : PartLoop) :
    (part_loop env mounts de_name st).encryption_present =
      (st.encryption_present ||
        (emitted_parts env mounts de_name).any (fun p => p.is_luks)) := by
  unfold part_loop emitted_parts
  cases env.sys_class_block with
  | none => simp
  | some entries => exact part_fold_enc env mounts de_name entries st

theorem disk_step_fields (env : Env) (mounts : List MountInfo) (st : DiskLoop)
    (de_name : String) :
    (disk_step env mounts st de_name).disks =
        st.disks ++ (disk_emit env mounts de_name).toList ∧
      (disk_step env mounts st de_name).lvm_present =
        (st.lvm_present || (disk_emit env mounts de_name).toList.any
          (fun d => d.partitions.any (fun p => p.is_lvm_member))) ∧
      (disk_step env mounts st de_name).encryption_present =
        (st.encryption_present || (disk_emit env mounts de_name).toList.any
          (fun d => d.partitions.any (fun p => p.is_luks))) := by
  unfold disk_step disk_emit
  by_cases h1 : starts_with_dot de_name = true
  · simp [h1]
  · by_cases h2 : (!is_real_disk env de_name) = true
    · simp [h1, h2]
    · simp [h1, h2, devpath_from_name, part_loop_parts, part_loop_lvm, part_loop_enc]

theorem disk_fold_fields (env : Env) (mounts : List MountInfo) (entries : List String)
    (st : DiskLoop) :
    (entries.foldl (disk_step env mounts) st).disks =
        st.disks ++ entries.filterMap (disk_emit env mounts) ∧
      (entries.foldl (disk_step env mounts) st).lvm_present =
        (st.lvm_present || (entries.filterMap (disk_emit env mounts)).any
          (fun d => d.partitions.any (fun p => p.is_lvm_member))) ∧
      (entries.foldl (disk_step env mounts) st).encryption_present =
        (st.encryption_present || (entries.filterMap (disk_emit env mounts)).any
          (fun d => d.partitions.any (fun p => p.is_luks))) := by
  induction entries generalizing st with
  | nil => simp
  | cons e rest ih =>
    rw [List.foldl_cons, List.filterMap_cons]
    obtain ⟨h1, h2, h3⟩ := ih (disk_step env mounts st e)
    obtain ⟨g1, g2, g3⟩ := disk_step_fields env mounts st e
    rw [h1, h2, h3, g1, g2, g3]
    cases disk_emit env mounts e with
    | none => simp
    | some d => simp [Bool.or_assoc]

/-- The disk records of a run: the entries of `/sys/block` that pass the filters. -/
theorem main_disks (env : Env) :
    (main env).disks =
      match env.sys_block with
      | none => []
      | some entries => entries.filterMap (disk_emit env (load_mounts env)) := by
  unfold main
  cases env.sys_block with
  | none => rfl
  | some entries => simp [(disk_fold_fields env (load_mounts env) entries _).1]

theorem main_flags (env : Env) :
    (main env).lvm_present =
        (main env).disks.any (fun d => d.partitions.any (fun p => p.is_lvm_member)) ∧
      (main env).encryption_present =
        (main env).disks.any (fun d => d.partitions.any (fun p => p.is_luks)) := by
  unfold main
  cases env.sys_block with
  | none => simp
  | some entries =>
    obtain ⟨h1, h2, h3⟩ := disk_fold_fields env (load_mounts env) entries
      { out := print_header (read_swap_total_bytes env) (rec_swap (read_ram_total_bytes env))
        first_disk := true
        lvm_present := false
        encryption_present := false
        disks := [] }
    simp [h1, h2, h3]

/-- Every disk record of a run comes from an entry of `/sys/block`. -/
theorem mem_main_disks (env : Env) (d : Disk) (hd : d ∈ (main env).disks) :
    ∃ entries de_name, env.sys_block = some entries ∧ de_name ∈ entries ∧
      disk_emit env (load_mounts env) de_name = some d := by
  rw [main_disks] at hd
  cases hs : env.sys_block with
  | none => rw [hs] at hd; simp at hd
  | some entries =>
    rw [hs] at hd
    obtain ⟨e, he, hed⟩ := List.mem_filterMap.1 hd
    exact ⟨entries, e, rfl, he, hed⟩

/-- The fields of a disk record in terms of its name. -/
theorem disk_emit_some (env : Env) (mounts : List MountInfo) (de_name : String) (d : Disk)
    (h : disk_emit env mounts de_name = some d) :
    starts_with_dot de_name = false ∧ is_real_disk env de_name = true ∧
      d.name = de_name ∧ d.path = "/dev/" ++ de_name ∧
      d.sector_size = (read_ull env ("/sys/block/" ++ de_name ++ "/queue/hw_sector_size")
        SECTOR_BYTES_DEFAULT).2 ∧
      d.size_sectors = (read_ull env ("/sys/block/" ++ de_name ++ "/size") 0).2 ∧
      d.size_bytes = (d.size_sectors * d.sector_size) % ULL ∧
      d.partitions = emitted_parts env mounts de_name := by
  unfold disk_emit at h
  by_cases h1 : starts_with_dot de_name = true
  · simp [h1] at h
  · by_cases h2 : (!is_real_disk env de_name) = true
    · simp [h1, h2] at h
    · simp only [h1, h2, devpath_from_name] at h
      simp only [Bool.false_eq_true, if_false, Option.some.injEq] at h
      subst h
      simp at h1 h2
      simp [h1, h2]

/-- Every partition record of a disk comes from an entry of `/sys/class/block`. -/
theorem mem_emitted_parts (env : Env) (mounts : List MountInfo) (de_name : String)
    (p : Partition) (hp : p ∈ emitted_parts env mounts de_name) :
    ∃ entries ce_name, env.sys_class_block = some entries ∧ ce_name ∈ entries ∧
      part_emit env mounts de_name ce_name = some p := by
  unfold emitted_parts at hp
  cases hs : env.sys_class_block with
  | none => rw [hs] at hp; simp at hp
  | some entries =>
    rw [hs] at hp
    obtain ⟨e, he, hep⟩ := List.mem_filterMap.1 hp
    exact ⟨entries, e, rfl, he, hep⟩

theorem part_emit_some (env : Env) (mounts : List MountInfo) (de_name ce_name : String)
    (p : Partition) (h : part_emit env mounts de_name ce_name = some p) :
    starts_with_dot ce_name = false ∧ is_partition_of de_name ce_name = true ∧
      scan_partition env mounts ce_name = some p := by
  unfold part_emit at h
  by_cases h1 : starts_with_dot ce_name = true
  · simp [h1] at h
  · by_cases h2 : (!is_partition_of de_name ce_name) = true
    · simp [h1, h2] at h
    · simp only [h1, h2] at h
      simp at h1 h2
      exact ⟨h1, h2, by simpa using h⟩

/-- The fields of a partition record in terms of the entry it was printed for. -/
theorem scan_partition_some (env : Env) (mounts : List MountInfo) (ce_name : String)
    (p : Partition) (h : scan_partition env mounts ce_name = some p) :
    p.name = ce_name ∧ p.path = "/dev/" ++ ce_name ∧
      p.start_sector = (read_ull env ("/sys/class/block/" ++ ce_name ++ "/start") 0).2 ∧
      p.size_sectors = (read_ull env ("/sys/class/block/" ++ ce_name ++ "/size") 0).2 ∧
      p.end_sector =
        (if p.size_sectors ≠ 0 then
          ((p.start_sector + p.size_sectors) % ULL + (ULL - 1)) % ULL
        else p.start_sector) ∧
      p.mountpoint =
        (match find_mount_by_dev mounts p.path with
         | some m => m.mnt
         | none => none) ∧
      p.fs_type =
        (match (match find_mount_by_dev mounts p.path with
                | some m => m.fstype
                | none => none) with
         | some f => some f
         | none => blkid_type env p.path) ∧
      p.is_lvm_member =
        (match blkid_type env p.path with
         | some t => strcmp_eq t "LVM2_member"
         | none => false) ∧
      p.is_luks =
        (match blkid_type env p.path with
         | some t => strcmp_eq t "crypto_LUKS"
         | none => false) := by
  unfold scan_partition at h
  simp only [devpath_from_name, Option.some.injEq] at h
  subst h
  exact ⟨rfl, rfl, rfl, rfl, rfl, rfl, rfl, rfl, rfl⟩

/-- Every partition record of a run was printed for an entry of
`/sys/class/block` that passed the filters of the partition loop. -/
theorem mem_main_parts (env : Env) (d : Disk) (p : Partition)
    (hd : d ∈ (main env).disks) (hp : p ∈ d.partitions) :
    ∃ entries ce_name, env.sys_class_block = some entries ∧ ce_name ∈ entries ∧
      starts_with_dot d.name = false ∧
      starts_with_dot ce_name = false ∧ is_partition_of d.name ce_name = true ∧
      scan_partition env (load_mounts env) ce_name = some p := by
  obtain ⟨_, de_name, _, _, hde⟩ := mem_main_disks env d hd
  obtain ⟨hdot, _, hname, _, _, _, _, hparts⟩ := disk_emit_some env _ de_name d hde
  rw [hparts] at hp
  obtain ⟨entries, ce_name, hes, hce, hemit⟩ := mem_emitted_parts env _ de_name p hp
  obtain ⟨h1, h2, h3⟩ := part_emit_some env _ de_name ce_name p hemit
  exact ⟨entries, ce_name, hes, hce, hname ▸ hdot, h1, hname ▸ h2, h3⟩

theorem probe_flag_iff (o : Option String) (lit : String) :
    (match o with
     | some t => strcmp_eq t lit
     | none => false) = true ↔ o = some lit :=
  nullable_strcmp_iff o lit

/-! ## The mount lookup -/

/-- C1: on the table `load_mounts` builds from any sequence of records,
`find_mount_by_dev` returns not-found exactly when no loaded entry has `dev` or
`realdev` equal to the path; it returns the entry of a record that matches and
after which no record's entry matches (the most recently inserted match); and
whatever it returns is such an entry. -/
theorem find_mount_by_dev_most_recent (realpath : String → Option String)
    (recs : List MountRecord) (devpath : String) :
    (find_mount_by_dev (load_loop realpath recs) devpath = none ↔
      ∀ r ∈ recs, ¬ ((mount_node realpath r).dev = some devpath ∨
        (mount_node realpath r).realdev = some devpath)) ∧
    (∀ (pre post : List MountRecord) (r : MountRecord),
      recs = pre ++ r :: post →
      ((mount_node realpath r).dev = some devpath ∨
        (mount_node realpath r).realdev = some devpath) →
      (∀ r' ∈ post, ¬ ((mount_node realpath r').dev = some devpath ∨
        (mount_node realpath r').realdev = some devpath)) →
      find_mount_by_dev (load_loop realpath recs) devpath = some (mount_node realpath r)) ∧
    (∀ mi, find_mount_by_dev (load_loop realpath recs) devpath = some mi →
      ∃ pre r post, recs = pre ++ r :: post ∧ mi = mount_node realpath r ∧
        ((mount_node realpath r).dev = some devpath ∨
          (mount_node realpath r).realdev = some devpath) ∧
        ∀ r' ∈ post, ¬ ((mount_node realpath r').dev = some devpath ∨
          (mount_node realpath r').realdev = some devpath)) := by
  refine ⟨?_, ?_, fun mi h => find_load_loop_some realpath recs devpath mi h⟩
  · rw [find_mount_by_dev_eq_none, load_loop_eq]
    simp only [List.mem_reverse, List.mem_map, forall_exists_index, and_imp,
      forall_apply_eq_imp_iff₂]
  · intro pre post r hrecs hr hpost
    subst hrecs
    rw [load_loop_eq, List.map_append, List.map_cons, List.reverse_append,
      List.reverse_cons, List.append_assoc, List.singleton_append]
    apply find_mount_by_dev_first _ _ _ _ _ hr
    intro q hq
    simp only [List.mem_reverse, List.mem_map] at hq
    obtain ⟨r', hr', rfl⟩ := hq
    exact hpost r' hr'

/-- Instance of C1: `/dev/sda1` loaded twice, the later record wins. -/
theorem find_mount_by_dev_most_recent_witness :
    find_mount_by_dev
        (load_loop (fun p => some p)
          [⟨"/dev/sda1", "/", "ext4"⟩, ⟨"/dev/sda1", "/mnt", "ext4"⟩]) "/dev/sda1" =
      some (mount_node (fun p => some p) ⟨"/dev/sda1", "/mnt", "ext4"⟩) :=
  (find_mount_by_dev_most_recent (fun p => some p)
    [⟨"/dev/sda1", "/", "ext4"⟩, ⟨"/dev/sda1", "/mnt", "ext4"⟩] "/dev/sda1").2.1
    [⟨"/dev/sda1", "/", "ext4"⟩] [] ⟨"/dev/sda1", "/mnt", "ext4"⟩ rfl
    (by decide) (by simp)

/-! ## Per-partition fields -/

/-- C2: for every partition printed by a run, `fs_type` is the `fstype` of the
mount entry when `find_mount_by_dev` finds the partition's device path in the
table (whatever the probe returned), is the probed type when the path is not
found and the probe returned one, and is null when the path is not found and
the probe returned nothing. -/
theorem fs_type_priority (env : Env) (d : Disk) (p : Partition)
    (hd : d ∈ (main env).disks) (hp : p ∈ d.partitions) :
    (∀ mi, find_mount_by_dev (load_mounts env) p.path = some mi →
      ∃ f, mi.fstype = some f ∧ p.fs_type = some f) ∧
    (find_mount_by_dev (load_mounts env) p.path = none →
      ∀ t, blkid_type env p.path = some t → p.fs_type = some t) ∧
    (find_mount_by_dev (load_mounts env) p.path = none →
      blkid_type env p.path = none → p.fs_type = none) := by
  obtain ⟨_, ce_name, _, _, _, _, _, hscan⟩ := mem_main_parts env d p hd hp
  obtain ⟨_, _, _, _, _, _, hfs, _, _⟩ := scan_partition_some env _ ce_name p hscan
  refine ⟨?_, ?_, ?_⟩
  · intro mi hmi
    obtain ⟨r, hr⟩ := mem_load_mounts env mi (find_mount_by_dev_mem _ _ _ hmi).1
    refine ⟨r.fstype, by rw [hr, mount_node], ?_⟩
    rw [hfs, hmi, hr, mount_node]
  · intro hnone t ht
    rw [hfs, hnone, ht]
  · intro hnone ht
    rw [hfs, hnone, ht]

/-- Instance of C2: `sda2` of `sample_env` is not mounted and probes as LUKS. -/
theorem fs_type_priority_witness :
    sample_sda ∈ (main sample_env).disks ∧ sample_sda2 ∈ sample_sda.partitions ∧
      find_mount_by_dev (load_mounts sample_env) sample_sda2.path = none ∧
      blkid_type sample_env sample_sda2.path = some "crypto_LUKS" ∧
      sample_sda2.fs_type = some "crypto_LUKS" :=
  ⟨by set_option maxRecDepth 100000 in decide, by decide,
    by set_option maxRecDepth 100000 in decide, by decide,
    (fs_type_priority sample_env sample_sda sample_sda2
      (by set_option maxRecDepth 100000 in decide) (by decide)).2.1
      (by set_option maxRecDepth 100000 in decide) "crypto_LUKS" (by decide)⟩

/-- C3: for every run that completes, `lvm_present` is true exactly when some
printed partition, on any disk, has probed type `LVM2_member`, and
`encryption_present` is true exactly when some printed partition has probed
type `crypto_LUKS`. -/
theorem presence_flags_iff (env : Env) (_hcompletes : (main env).exit_code = 0) :
    ((main env).lvm_present = true ↔
      ∃ d ∈ (main env).disks, ∃ p ∈ d.partitions,
        blkid_type env p.path = some "LVM2_member") ∧
    ((main env).encryption_present = true ↔
      ∃ d ∈ (main env).disks, ∃ p ∈ d.partitions,
        blkid_type env p.path = some "crypto_LUKS") := by
  have key : ∀ d ∈ (main env).disks, ∀ p ∈ d.partitions,
      (p.is_lvm_member = true ↔ blkid_type env p.path = some "LVM2_member") ∧
      (p.is_luks = true ↔ blkid_type env p.path = some "crypto_LUKS") := by
    intro d hd p hp
    obtain ⟨_, ce_name, _, _, _, _, _, hscan⟩ := mem_main_parts env d p hd hp
    obtain ⟨_, _, _, _, _, _, _, hlvm, hluks⟩ := scan_partition_some env _ ce_name p hscan
    rw [hlvm, hluks]
    exact ⟨probe_flag_iff _ _, probe_flag_iff _ _⟩
  obtain ⟨h1, h2⟩ := main_flags env
  rw [h1, h2]
  simp only [List.any_eq_true]
  constructor
  · constructor
    · rintro ⟨d, hd, p, hp, hflag⟩
      exact ⟨d, hd, p, hp, ((key d hd p hp).1).1 hflag⟩
    · rintro ⟨d, hd, p, hp, hflag⟩
      exact ⟨d, hd, p, hp, ((key d hd p hp).1).2 hflag⟩
  · constructor
    · rintro ⟨d, hd, p, hp, hflag⟩
      exact ⟨d, hd, p, hp, ((key d hd p hp).2).1 hflag⟩
    · rintro ⟨d, hd, p, hp, hflag⟩
      exact ⟨d, hd, p, hp, ((key d hd p hp).2).2 hflag⟩

/-- Instance of C3 on `sample_env`, whose run completes. -/
theorem presence_flags_iff_witness :
    (main sample_env).exit_code = 0 ∧
    ((main sample_env).lvm_present = true ↔
      ∃ d ∈ (main sample_env).disks, ∃ p ∈ d.partitions,
        blkid_type sample_env p.path = some "LVM2_member") ∧
    ((main sample_env).encryption_present = true ↔
      ∃ d ∈ (main sample_env).disks, ∃ p ∈ d.partitions,
        blkid_type sample_env p.path = some "crypto_LUKS") :=
  ⟨by decide, presence_flags_iff sample_env (by decide)⟩

/-- C6 as stated fails: on `wrap_env` the partition `sda1` has start sector
`2^64 - 1` and two sectors, and its `end_sector` is printed as 0, not as
start + count - 1. -/
theorem end_sector_wraps :
    wrap_env.scan_ull "/sys/class/block/sda1/start" = some 18446744073709551615 ∧
    wrap_env.scan_ull "/sys/class/block/sda1/size" = some 2 ∧
    ∃ d ∈ (main wrap_env).disks, ∃ p ∈ d.partitions,
      p.name = "sda1" ∧ p.start_sector = 18446744073709551615 ∧ p.size_sectors = 2 ∧
      p.end_sector = 0 ∧ p.end_sector ≠ p.start_sector + p.size_sectors - 1 := by
  set_option maxRecDepth 100000 in decide

theorem sub_one_mod (a : Nat) (h0 : 0 < a) (h : a ≤ ULL) :
    (a % ULL + (ULL - 1)) % ULL = a - 1 := by
  unfold ULL at *
  omega

/-- C6, amended: for every partition printed by a run, the start sector and the
sector count are the values read from the kernel attributes (0 when
unreadable), `end_sector` equals the start sector when the count is 0, and
equals start + count - 1 when the count is positive and start + count does not
exceed `2^64`. -/
theorem end_sector_in_range (env : Env) (d : Disk) (p : Partition)
    (hd : d ∈ (main env).disks) (hp : p ∈ d.partitions) :
    p.start_sector =
      (match env.scan_ull ("/sys/class/block/" ++ p.name ++ "/start") with
       | some v => v % 2 ^ 64
       | none => 0) ∧
    p.size_sectors =
      (match env.scan_ull ("/sys/class/block/" ++ p.name ++ "/size") with
       | some v => v % 2 ^ 64
       | none => 0) ∧
    (p.size_sectors = 0 → p.end_sector = p.start_sector) ∧
    (0 < p.size_sectors → p.start_sector + p.size_sectors ≤ 2 ^ 64 →
      p.end_sector = p.start_sector + p.size_sectors - 1) := by
  obtain ⟨_, ce_name, _, _, _, _, _, hscan⟩ := mem_main_parts env d p hd hp
  obtain ⟨hname, _, hstart, hsize, hend, _⟩ := scan_partition_some env _ ce_name p hscan
  refine ⟨?_, ?_, ?_, ?_⟩
  · rw [hstart, hname, read_ull]
    cases env.scan_ull ("/sys/class/block/" ++ ce_name ++ "/start") <;> rfl
  · rw [hsize, hname, read_ull]
    cases env.scan_ull ("/sys/class/block/" ++ ce_name ++ "/size") <;> rfl
  · intro h0
    rw [hend, if_neg (by simp [h0])]
  · intro hpos hle
    rw [hend, if_pos (by omega)]
    exact sub_one_mod _ (by omega) hle

/-- Instance of C6: `sda1` of `sample_env` ends at sector 502047. -/
theorem end_sector_in_range_witness :
    sample_sda ∈ (main sample_env).disks ∧ sample_sda1 ∈ sample_sda.partitions ∧
      0 < sample_sda1.size_sectors ∧
      sample_sda1.start_sector + sample_sda1.size_sectors ≤ 2 ^ 64 ∧
      sample_sda1.end_sector = sample_sda1.start_sector + sample_sda1.size_sectors - 1 :=
  ⟨by set_option maxRecDepth 100000 in decide, by decide, by decide, by decide,
    (end_sector_in_range sample_env sample_sda sample_sda1
      (by set_option maxRecDepth 100000 in decide) (by decide)).2.2.2
      (by decide) (by decide)⟩

/-! ## Per-disk fields -/

/-- C9 as stated fails: on `wrap_env` the disk `sda` has `2^55` sectors of 512
bytes and its `size_bytes` is printed as 0, not as the product. -/
theorem size_bytes_wraps :
    ∃ d ∈ (main wrap_env).disks,
      d.name = "sda" ∧ d.size_sectors = 36028797018963968 ∧ d.sector_size = 512 ∧
      d.size_bytes = 0 ∧ d.size_bytes ≠ d.size_sectors * d.sector_size := by
  set_option maxRecDepth 100000 in decide

/-- C9, amended: for every disk printed by a run, `size_bytes` is
`size_sectors * sector_size` reduced modulo `2^64`, hence equals the product
whenever the product is below `2^64`; and `sector_size` is 512 whenever the
sector-size attribute cannot be read. -/
theorem size_bytes_in_range (env : Env) (d : Disk) (hd : d ∈ (main env).disks) :
    d.size_bytes = (d.size_sectors * d.sector_size) % 2 ^ 64 ∧
    (d.size_sectors * d.sector_size < 2 ^ 64 →
      d.size_bytes = d.size_sectors * d.sector_size) ∧
    (env.scan_ull ("/sys/block/" ++ d.name ++ "/queue/hw_sector_size") = none →
      (read_ull env ("/sys/block/" ++ d.name ++ "/queue/hw_sector_size")
        SECTOR_BYTES_DEFAULT) = (-1, 512) ∧
      d.sector_size = 512) := by
  obtain ⟨_, de_name, _, _, hde⟩ := mem_main_disks env d hd
  obtain ⟨_, _, hname, _, hsec, _, hbytes, _⟩ := disk_emit_some env _ de_name d hde
  refine ⟨hbytes, ?_, ?_⟩
  · intro hlt
    rw [hbytes]
    exact Nat.mod_eq_of_lt hlt
  · intro hnone
    rw [hname] at hnone
    rw [hsec, hname, read_ull, hnone]
    exact ⟨rfl, rfl⟩

/-- Instance of C9: the disk `sda` of `sample_env`. -/
theorem size_bytes_in_range_witness :
    sample_sda ∈ (main sample_env).disks ∧
      sample_sda.size_sectors * sample_sda.sector_size < 2 ^ 64 ∧
      sample_sda.size_bytes = sample_sda.size_sectors * sample_sda.sector_size :=
  ⟨by set_option maxRecDepth 100000 in decide, by decide,
    (size_bytes_in_range sample_env sample_sda
      (by set_option maxRecDepth 100000 in decide)).2.1 (by decide)⟩

/-! ## Partition membership -/

theorem strncmp_eq_iff_starts (disk entry : List Char) :
    strncmp_eq entry disk disk.length = true ↔ disk <+: entry := by
  induction disk generalizing entry with
  | nil => simp [strncmp_eq]
  | cons b bs ih =>
    cases entry with
    | nil => simp [strncmp_eq]
    | cons a as =>
      simp only [List.length_cons, strncmp_eq, Bool.and_eq_true, beq_iff_eq, ih,
        List.cons_prefix_cons]
      constructor
      · rintro ⟨h1, h2⟩
        exact ⟨h1.symm, h2⟩
      · rintro ⟨h1, h2⟩
        exact ⟨h1.symm, h2⟩

theorem is_partition_of_iff (disk entry : String) :
    is_partition_of disk entry = true ↔
      disk.data <+: entry.data ∧ disk.data.length < entry.data.length := by
  unfold is_partition_of
  simp only [Bool.and_eq_true, decide_eq_true_eq, strncmp_eq_iff_starts, gt_iff_lt]

theorem not_dot_of_starts (disk entry : String) (hne : disk ≠ "")
    (hdot : starts_with_dot disk = false) (hpre : disk.data <+: entry.data) :
    starts_with_dot entry = false := by
  obtain ⟨t, ht⟩ := hpre
  unfold starts_with_dot at *
  cases hd : disk.data with
  | nil =>
    exact absurd (String.ext hd) hne
  | cons c cs =>
    rw [hd] at hdot ht
    rw [← ht]
    simpa using hdot

/-- C8: for every disk printed by a run and every entry name of
`/sys/class/block`, the entry is printed as a partition of the disk exactly
when the disk's name is a prefix of the entry's name and the entry's name is
strictly longer; and no partition of a disk carries the disk's own name.
(Directory entry names are never empty, which is the hypothesis on the disk's
name.) -/
theorem partition_iff_longer_name (env : Env) (d : Disk) (entries : List String)
    (e : String) (hd : d ∈ (main env).disks) (hname : d.name ≠ "")
    (hentries : env.sys_class_block = some entries) (he : e ∈ entries) :
    ((∃ p ∈ d.partitions, p.name = e) ↔
      (d.name.data <+: e.data ∧ d.name.data.length < e.data.length)) ∧
    (∀ p ∈ d.partitions, p.name ≠ d.name) := by
  obtain ⟨_, de_name, _, _, hde⟩ := mem_main_disks env d hd
  obtain ⟨hdot, _, hdn, _, _, _, _, hparts⟩ := disk_emit_some env _ de_name d hde
  subst hdn
  have hfwd : ∀ p ∈ d.partitions,
      d.name.data <+: p.name.data ∧ d.name.data.length < p.name.data.length := by
    intro p hp
    rw [hparts] at hp
    obtain ⟨_, ce_name, _, _, hemit⟩ := mem_emitted_parts env _ d.name p hp
    obtain ⟨_, hpart, hscan⟩ := part_emit_some env _ d.name ce_name p hemit
    obtain ⟨hpn, _⟩ := scan_partition_some env _ ce_name p hscan
    rw [hpn]
    exact (is_partition_of_iff d.name ce_name).1 hpart
  refine ⟨⟨?_, ?_⟩, ?_⟩
  · rintro ⟨p, hp, rfl⟩
    exact hfwd p hp
  · intro hpre
    have hpart : is_partition_of d.name e = true := (is_partition_of_iff d.name e).2 hpre
    have hedot : starts_with_dot e = false := not_dot_of_starts d.name e hname hdot hpre.1
    cases hscan : scan_partition env (load_mounts env) e with
    | none => simp [scan_partition, devpath_from_name] at hscan
    | some p =>
      refine ⟨p, ?_, (scan_partition_some env _ e p hscan).1⟩
      rw [hparts, emitted_parts, hentries]
      refine List.mem_filterMap.2 ⟨e, he, ?_⟩
      simp [part_emit, hedot, hpart, hscan]
  · intro p hp heq
    have := (hfwd p hp).2
    rw [heq] at this
    exact Nat.lt_irrefl _ this

/-- Instance of C8: `sda1` is printed under `sda` on `sample_env`. -/
theorem partition_iff_longer_name_witness :
    sample_sda ∈ (main sample_env).disks ∧ sample_sda.name ≠ "" ∧
      sample_env.sys_class_block = some [".", "..", "loop0", "sda", "sda1", "sda2"] ∧
      ((∃ p ∈ sample_sda.partitions, p.name = "sda1") ↔
        (sample_sda.name.data <+: "sda1".data ∧
          sample_sda.name.data.length < "sda1".data.length)) ∧
      (∀ p ∈ sample_sda.partitions, p.name ≠ sample_sda.name) :=
  ⟨by set_option maxRecDepth 100000 in decide, by decide, rfl,
    partition_iff_longer_name sample_env sample_sda
      [".", "..", "loop0", "sda", "sda1", "sda2"] "sda1"
      (by set_option maxRecDepth 100000 in decide) (by decide) rfl (by decide)⟩

/-! ## Mounted partitions -/

/-- C7 as stated fails: on `shadow_env` the table holds an entry for
`/dev/sda1` with mountpoint `/`, the partition `sda1` has that device path, yet
its reported mountpoint is `/mnt`, the mountpoint of the entry loaded later. -/
theorem older_entry_not_reported :
    ∃ d ∈ (main shadow_env).disks, ∃ p ∈ d.partitions,
      ∃ E ∈ load_mounts shadow_env,
        (E.dev = some p.path ∨ E.realdev = some p.path) ∧
        E.mnt = some "/" ∧ p.mountpoint = some "/mnt" ∧ p.mountpoint ≠ E.mnt := by
  set_option maxRecDepth 100000 in decide

/-- C7, amended: for every mount table and every partition printed by a run, if
`E` is the entry of the last record of `/proc/mounts` whose `dev` or `realdev`
equals the partition's device path, then the partition's reported mountpoint is
`E`'s mountpoint and its reported `fs_type` is `E`'s `fstype`, whatever the
probe returned. -/
theorem mounted_fields_of_last_match (env : Env) (d : Disk) (p : Partition)
    (pre post : List MountRecord) (r : MountRecord)
    (hd : d ∈ (main env).disks) (hp : p ∈ d.partitions)
    (hrecs : env.proc_mounts = some (pre ++ r :: post))
    (hr : (mount_node env.realpath r).dev = some p.path ∨
      (mount_node env.realpath r).realdev = some p.path)
    (hpost : ∀ r' ∈ post, ¬ ((mount_node env.realpath r').dev = some p.path ∨
      (mount_node env.realpath r').realdev = some p.path)) :
    p.mountpoint = (mount_node env.realpath r).mnt ∧
    p.fs_type = (mount_node env.realpath r).fstype ∧
    (mount_node env.realpath r).mnt = some r.mnt ∧
    (mount_node env.realpath r).fstype = some r.fstype := by
  obtain ⟨_, ce_name, _, _, _, _, _, hscan⟩ := mem_main_parts env d p hd hp
  obtain ⟨_, _, _, _, _, hmnt, hfs, _, _⟩ := scan_partition_some env _ ce_name p hscan
  have hfind : find_mount_by_dev (load_mounts env) p.path =
      some (mount_node env.realpath r) := by
    rw [load_mounts, hrecs]
    simp only []
    rw [load_loop_eq, List.map_append, List.map_cons, List.reverse_append,
      List.reverse_cons, List.append_assoc, List.singleton_append]
    apply find_mount_by_dev_first _ _ _ _ _ hr
    intro q hq
    simp only [List.mem_reverse, List.mem_map] at hq
    obtain ⟨r', hr', rfl⟩ := hq
    exact hpost r' hr'
  rw [hmnt, hfs, hfind]
  exact ⟨rfl, rfl, rfl, rfl⟩

/-- Instance of C7: on `shadow_env` the partition `sda1` reports the mountpoint
of the later of the two records for `/dev/sda1`. -/
theorem mounted_fields_of_last_match_witness :
    shadow_sda ∈ (main shadow_env).disks ∧ shadow_sda1 ∈ shadow_sda.partitions ∧
      shadow_sda1.mountpoint = some "/mnt" ∧ shadow_sda1.fs_type = some "ext4" :=
  ⟨by set_option maxRecDepth 100000 in decide, by decide,
    (mounted_fields_of_last_match shadow_env shadow_sda shadow_sda1
      [⟨"/dev/sda1", "/", "ext4"⟩] [] ⟨"/dev/sda1", "/mnt", "ext4"⟩
      (by set_option maxRecDepth 100000 in decide) (by decide) rfl
      (by decide) (by simp)).1,
    (mounted_fields_of_last_match shadow_env shadow_sda shadow_sda1
      [⟨"/dev/sda1", "/", "ext4"⟩] [] ⟨"/dev/sda1", "/mnt", "ext4"⟩
      (by set_option maxRecDepth 100000 in decide) (by decide) rfl
      (by decide) (by simp)).2.1⟩

/-! ## Swap recommendation -/

theorem main_swap_recommended (env : Env) :
    (main env).swap_recommended_bytes = rec_swap (read_ram_total_bytes env) := by
  unfold main
  cases env.sys_block <;> rfl

/-- C4 as stated fails: on `wrap_env` the RAM size read is 6148914691236517888
bytes and the recommendation is 1024 bytes, not the minimum of one and a half
times the RAM and 16 GiB. -/
theorem rec_swap_wraps :
    read_ram_total_bytes wrap_env = 6148914691236517888 ∧
    (main wrap_env).swap_recommended_bytes = 1024 ∧
    (main wrap_env).swap_recommended_bytes ≠
      min (read_ram_total_bytes wrap_env * 3 / 2) (16 * 2 ^ 30) := by
  set_option maxRecDepth 100000 in decide

/-- C4, amended: for every RAM size `ram` read by `read_ram_total_bytes` with
`ram * 3` below `2^64`, `swap_recommended_bytes` is the minimum of
`ram * 3 / 2` and `16 * 2^30` when `ram` is nonzero and is `16 * 2^30` when
`ram` is zero; the size read is zero when `/proc/meminfo` cannot be opened. -/
theorem rec_swap_in_range (env : Env) (hfit : read_ram_total_bytes env * 3 < 2 ^ 64) :
    (read_ram_total_bytes env ≠ 0 →
      (main env).swap_recommended_bytes =
        min (read_ram_total_bytes env * 3 / 2) (16 * 2 ^ 30)) ∧
    (read_ram_total_bytes env = 0 →
      (main env).swap_recommended_bytes = 16 * 2 ^ 30) ∧
    (env.proc_meminfo = none → read_ram_total_bytes env = 0) := by
  have hcap : cap_16g = 16 * 2 ^ 30 := by decide
  rw [main_swap_recommended]
  refine ⟨?_, ?_, ?_⟩
  · intro hne
    unfold rec_swap
    simp only [hne, ne_eq, not_false_eq_true, if_true, hcap]
    rw [show ULL = 2 ^ 64 from rfl, Nat.mod_eq_of_lt hfit, Nat.min_def]
    split <;> split <;> omega
  · intro h0
    unfold rec_swap
    simp [h0, hcap, ULL]
  · intro hnone
    rw [read_ram_total_bytes, hnone]

/-- Instance of C4: 8 GiB of RAM on `sample_env` gives 12884901888 bytes. -/
theorem rec_swap_in_range_witness :
    read_ram_total_bytes sample_env = 8 * 2 ^ 30 ∧
      read_ram_total_bytes sample_env * 3 < 2 ^ 64 ∧
      (main sample_env).swap_recommended_bytes =
        min (read_ram_total_bytes sample_env * 3 / 2) (16 * 2 ^ 30) ∧
      min (read_ram_total_bytes sample_env * 3 / 2) (16 * 2 ^ 30) = 12884901888 :=
  ⟨by decide, by decide, (rec_swap_in_range sample_env (by decide)).1 (by decide),
    by decide⟩

/-- The second scenario of C4: 32 GiB of RAM gives 16 GiB, not 48 GiB. -/
theorem rec_swap_32_gib : rec_swap (32 * 2 ^ 30) = 16 * 2 ^ 30 := by decide

/-! ## The fatal path -/

/-- C5 (the code departs from it): whenever `/sys/block` cannot be opened,
whatever the mount, swap and memory sources hold, `main` returns 1 and
standard output holds the text printed before the directory was opened, which
is not empty. -/
theorem fatal_exit_after_header (env : Env) (hfail : env.sys_block = none) :
    (main env).exit_code = 1 ∧
    (main env).stdout =
      print_header (read_swap_total_bytes env) (rec_swap (read_ram_total_bytes env)) ∧
    (main env).stdout ≠ "" := by
  have hout : (main env).stdout =
      print_header (read_swap_total_bytes env) (rec_swap (read_ram_total_bytes env)) := by
    unfold main
    rw [hfail]
  refine ⟨?_, hout, ?_⟩
  · unfold main
    rw [hfail]
  · rw [hout]
    intro h
    have hlen := congrArg String.length h
    simp only [print_header, String.length_append] at hlen
    have h0 : "".length = 0 := rfl
    have h1 : 0 < "\"disks\":[".length := by decide
    omega

/-- Instance of C5: the run on `no_sys_block_env` returns 1 with the opening of
the object on standard output. -/
theorem fatal_exit_after_header_witness :
    no_sys_block_env.sys_block = none ∧
    (main no_sys_block_env).exit_code = 1 ∧
    (main no_sys_block_env).stdout =
      "\x7b\"swap_current_bytes\":0,\"swap_recommended_bytes\":12884901888,\"disks\":[" ∧
    (main no_sys_block_env).stdout ≠ "" :=
  ⟨rfl, (fatal_exit_after_header no_sys_block_env rfl).1,
    by set_option maxRecDepth 100000 in decide,
    (fatal_exit_after_header no_sys_block_env rfl).2.2⟩

/-! ## Escaping -/

theorem json_escape_cons (c : Char) (s : List Char) :
    json_escape (c :: s) = escape_char c ++ json_escape s := by
  rw [json_escape, escape_char]
  by_cases h1 : (c == '\\' || c == '\"') = true
  · simp [h1]
  · by_cases h2 : (c == '\n') = true
    · simp [h1, h2]
    · simp [h1, h2]

theorem escape_char_is_unit (c : Char) : is_escape_unit (escape_char c) = true := by
  unfold escape_char
  by_cases h1 : c = '\\'
  · subst h1; decide
  · by_cases h2 : c = '\"'
    · subst h2; decide
    · by_cases h3 : c = '\n'
      · subst h3; decide
      · simp [h1, h2, h3, is_escape_unit]

theorem decode_escape_char (c : Char) : decode_unit (escape_char c) = some c := by
  unfold escape_char
  by_cases h1 : c = '\\'
  · subst h1; decide
  · by_cases h2 : c = '\"'
    · subst h2; decide
    · by_cases h3 : c = '\n'
      · subst h3; decide
      · simp [h1, h2, h3, decode_unit]

theorem json_unescape_plain (b : Char) (l : List Char)
    (h1 : b ≠ '\\') (h2 : b ≠ '\"') (h3 : b ≠ '\n') :
    json_unescape (b :: l) = (json_unescape l).map (b :: ·) := by
  cases l with
  | nil => simp [json_unescape, h1, h2, h3]
  | cons c rest => simp [json_unescape, h1, h2, h3]

theorem json_unescape_escape (s : List Char) : json_unescape (json_escape s) = some s := by
  induction s with
  | nil => simp [json_escape, json_unescape]
  | cons c s ih =>
    rw [json_escape_cons, escape_char]
    by_cases h1 : c = '\\'
    · subst h1
      simp [json_unescape, ih]
    · by_cases h2 : c = '\"'
      · subst h2
        simp [json_unescape, ih]
      · by_cases h3 : c = '\n'
        · subst h3
          simp [json_unescape, ih]
        · have e1 : (c == '\\' || c == '\"') = false := by simp [h1, h2]
          have e2 : (c == '\n') = false := by simp [h3]
          rw [e1, e2]
          simp only [Bool.false_eq_true, if_false, List.singleton_append]
          rw [json_unescape_plain c _ h1 h2 h3, ih]
          rfl

/-- C10: for every string, the text `json_escape` writes is a concatenation of
units, each a two-character escape (backslash backslash, backslash quote,
backslash n) or one character other than backslash, double quote and newline;
the units decode, one by one, to the characters of the string, and reading the
text back from the left, which rejects any double quote that does not follow
an escaping backslash, recovers the string. -/
theorem json_escape_units (s : List Char) :
    (∃ units : List (List Char),
      json_escape s = units.flatten ∧
      (∀ u ∈ units, is_escape_unit u = true) ∧
      units.map decode_unit = s.map some) ∧
    json_unescape (json_escape s) = some s := by
  refine ⟨⟨s.map escape_char, ?_, ?_, ?_⟩, json_unescape_escape s⟩
  · induction s with
    | nil => rfl
    | cons c s ih => rw [json_escape_cons, List.map_cons, List.flatten_cons, ih]
  · intro u hu
    obtain ⟨c, _, rfl⟩ := List.mem_map.1 hu
    exact escape_char_is_unit c
  · rw [List.map_map]
    apply List.map_congr_left
    intro c _
    exact decode_escape_char c

end PhaseA
